import Mathlib

/-!
Verification development for the activity-stream repository.

The repository is an ingestion and search gateway: an outgoing application
polls activity feeds and rebuilds Elasticsearch indices, and an incoming
application serves an authenticated, paginated read API.  This file gives a
shallow embedding, in Lean, of the parts of the code that the frozen claims
are about:

- the incoming authentication middleware (src/core/app/app_server.py):
  header checks, Hawk MAC verification via the external mohawk library,
  nonce replay protection through Redis SET-if-absent;
- the X-Forwarded-For whitelist check (the middleware variant that
  src/core/app.py instantiates with ip_whitelist; that variant is not under
  src, so it is modelled from the spec, with its selection rule pinned down
  by the tests in src/core/tests.py);
- the bulk-payload serialisation es_bulk (src/core/app.py) together with a
  model of Python json.dumps with sort_keys=True;
- the restart wrapper repeat_even_on_exception (src/core/app.py) and the
  lock refresh loop acquire_and_keep_lock (src/core/app/app_outgoing.py);
- the per-feed full-rebuild task ingest_feed (src/core/app/app_outgoing.py)
  as a trace of its externally visible effects;
- the liveness handler handle_get_check (src/core/app/app_server.py).

External collaborators (aiohttp, mohawk, Redis, Elasticsearch, the Python
standard library) are modelled at their interface: cryptographic MAC
verification is abstracted as a boolean outcome carried by the request,
Redis commands become operations on an explicit store value, and effects of
the long-running tasks are recorded as event traces.
-/

/-! ## Error messages (src/core/app/app_server.py lines 30 to 36) -/

def NOT_PROVIDED : String := "Authentication credentials were not provided."

def INCORRECT : String := "Incorrect authentication credentials."

def MISSING_CONTENT_TYPE : String :=
  "Content-Type header was not set. It must be set for authentication, even if as the empty string."

def MISSING_X_FORWARDED_PROTO : String := "The X-Forwarded-Proto header was not set."

def NOT_AUTHORIZED : String := "You are not authorized to perform this action."

def UNKNOWN_ERROR : String := "An unknown error occurred."

/-! ## Requests, credentials and the key-value store -/

/-- An incoming access key pair, as built from the environment in
src/core/app.py lines 50 to 54. -/
structure KeyPair where
  key_id : String
  secret_key : String
  permissions : List String
deriving DecidableEq

/-- The fields that the external mohawk library parses out of the
Authorization header: the Hawk id and the nonce. -/
structure AuthFields where
  id : String
  nonce : String
deriving DecidableEq

/-- An incoming HTTP request.  Headers are an association list looked up by
exact name.  The two mohawk-related fields abstract the external library:
authParsed is its parse of the Authorization header, and macValid is the
outcome of its cryptographic MAC, payload-hash and timestamp-skew
verification against the looked-up credentials. -/
structure Request where
  method : String
  headers : List (String × String)
  authParsed : Option AuthFields
  macValid : Bool
deriving DecidableEq

/-- Credentials as returned by lookup_credentials in
src/core/app/app_server.py lines 82 to 87. -/
structure Credentials where
  id : String
  key : String
  permissions : List String
  algorithm : String
deriving DecidableEq

/-- The resource data of a successfully constructed mohawk Receiver, of
which the source reads the nonce and the credentials. -/
structure Resource where
  nonce : String
  credentials : Credentials
deriving DecidableEq

/-- Failure modes inside the authentication step: a HawkFail raised by the
mohawk library, or a web.HTTPUnauthorized raised directly by
_authenticate_or_raise. -/
inductive AuthError where
  | hawkFail (reason : String)
  | httpUnauthorized (text : String)
deriving DecidableEq

/-- Header lookup: first entry with the given name. -/
def headerGet (headers : List (String × String)) (name : String) : Option String :=
  (headers.find? (fun en => en.1 == name)).map (fun en => en.2)

/-- The nonce store: entries are pairs of a key and an absolute expiry
instant (seconds).  An entry is live at time now while now is before its
expiry. -/
def KV : Type := List (String × Nat)

def kv_has_live (kv : KV) (now : Nat) (key : String) : Bool :=
  kv.any (fun en => en.1 == key && decide (now < en.2))

/-- Modelled from the spec: set_nonce_nx lives in core/app/app_redis.py,
which is not under src.  Per the spec (section 4.2 and section 4.7 step 6)
it issues Redis SET key 1 EX ttl NX and the authenticator compares the
reply against OK.  Redis SET with NX writes the key only when it is absent
or expired; the model returns the updated store and whether the reply was
OK, meaning the write happened. -/
def set_nonce_nx (kv : KV) (now : Nat) (key : String) (ttl : Nat) : KV × Bool :=
  if kv_has_live kv now key then (kv, false)
  else ((key, now + ttl) :: kv.filter (fun en => en.1 != key), true)

/-! ## The mohawk Receiver and _authenticate_or_raise
(src/core/app/app_server.py lines 71 to 108) -/

/-- lookup_credentials from src/core/app/app_server.py lines 72 to 87: the
key pairs whose key_id equals the passed id (hmac.compare_digest is a
constant-time string equality), HawkFail when none match, otherwise the
credentials dictionary built from the first match. -/
def lookup_credentials (incoming_key_pairs : List KeyPair) (passed_access_key_id : String) :
    Except AuthError Credentials :=
  match incoming_key_pairs.filter (fun kp => kp.key_id == passed_access_key_id) with
  | [] => Except.error (AuthError.hawkFail ("No Hawk ID of " ++ passed_access_key_id))
  | kp :: _ =>
    Except.ok { id := kp.key_id, key := kp.secret_key,
                permissions := kp.permissions, algorithm := "sha256" }

/-- The external mohawk Receiver constructor: parse the Authorization
header, look up credentials by the parsed id, verify the MAC; any failure
raises HawkFail.  Parsing and cryptographic verification are abstracted as
the authParsed and macValid fields of the request. -/
def mohawk_Receiver (incoming_key_pairs : List KeyPair) (req : Request) :
    Except AuthError Resource :=
  match req.authParsed with
  | none => Except.error (AuthError.hawkFail "missing authorization attributes")
  | some fields =>
    match lookup_credentials incoming_key_pairs fields.id with
    | Except.error e => Except.error e
    | Except.ok creds =>
      if req.macValid then Except.ok { nonce := fields.nonce, credentials := creds }
      else Except.error (AuthError.hawkFail "mac mismatch")

/-- The key under which a nonce is recorded,
src/core/app/app_server.py lines 100 to 102. -/
def nonce_key (res : Resource) : String :=
  let nonce := res.nonce
  let access_key_id := res.credentials.id
  s!"nonce-{access_key_id}-{nonce}"

/-- _authenticate_or_raise from src/core/app/app_server.py lines 71 to 108:
construct the mohawk Receiver (which may raise HawkFail), then perform the
replay check via set_nonce_nx; when the reply is not OK the nonce was seen
and web.HTTPUnauthorized with the INCORRECT text is raised.  The result
carries the updated store and the list of nonce entries actually written,
as pairs of key and ttl. -/
def _authenticate_or_raise (incoming_key_pairs : List KeyPair) (kv : KV)
    (now nonce_expire : Nat) (req : Request) :
    Except AuthError Resource × KV × List (String × Nat) :=
  match mohawk_Receiver incoming_key_pairs req with
  | Except.error e => (Except.error e, kv, [])
  | Except.ok receiver =>
    let result := set_nonce_nx kv now (nonce_key receiver) nonce_expire
    let kv2 := result.1
    let okReply := result.2
    let seen_nonce := !okReply
    if seen_nonce then (Except.error (AuthError.httpUnauthorized INCORRECT), kv2, [])
    else (Except.ok receiver, kv2, [(nonce_key receiver, nonce_expire)])

/-! ## The authenticator middleware (src/core/app/app_server.py lines 39 to 68) -/

/-- The decision of the middleware chain: either reject with a status and a
message, or forward the request to the handler annotated with the caller
permissions and key id. -/
inductive Decision where
  | reject (status : Nat) (text : String)
  | forward (permissions : List String) (key_id : String)
deriving DecidableEq

/-- The authenticator middleware of src/core/app/app_server.py lines 39 to
68: reject when X-Forwarded-Proto is absent, then when Authorization is
absent, then when Content-Type is absent (an empty string value is
present); then run _authenticate_or_raise, converting HawkFail into a 401
with the INCORRECT text; a raised web.HTTPUnauthorized propagates with its
own text.  Returns the decision, the updated nonce store, and the nonce
entries written. -/
def authenticator_step (incoming_key_pairs : List KeyPair) (nonce_expire : Nat)
    (kv : KV) (now : Nat) (req : Request) : Decision × KV × List (String × Nat) :=
  if headerGet req.headers "X-Forwarded-Proto" = none then
    (Decision.reject 401 MISSING_X_FORWARDED_PROTO, kv, [])
  else if headerGet req.headers "Authorization" = none then
    (Decision.reject 401 NOT_PROVIDED, kv, [])
  else if headerGet req.headers "Content-Type" = none then
    (Decision.reject 401 MISSING_CONTENT_TYPE, kv, [])
  else
    match _authenticate_or_raise incoming_key_pairs kv now nonce_expire req with
    | (Except.error (AuthError.hawkFail _), kv2, w) =>
      (Decision.reject 401 INCORRECT, kv2, w)
    | (Except.error (AuthError.httpUnauthorized text), kv2, w) =>
      (Decision.reject 401 text, kv2, w)
    | (Except.ok receiver, kv2, w) =>
      (Decision.forward receiver.credentials.permissions receiver.credentials.id, kv2, w)

/-! ## The X-Forwarded-For whitelist check and the full pipeline -/

/-- Splitting a character list at commas, the behaviour of Python
split(","): n commas yield n + 1 pieces. -/
def splitCommaChars : List Char → List (List Char)
  | [] => [[]]
  | c :: cs =>
    if c = ',' then [] :: splitCommaChars cs
    else
      match splitCommaChars cs with
      | [] => [[c]]
      | l :: ls => (c :: l) :: ls

/-- Whitespace characters removed by Python strip at either end. -/
def isStripped (c : Char) : Bool :=
  c == ' ' || c == '\t' || c == '\n' || c == '\r'

/-- Python strip: drop surrounding whitespace. -/
def strip (s : String) : String :=
  String.mk (((s.toList.dropWhile isStripped).reverse.dropWhile isStripped).reverse)

/-- The comma-separated entries of the X-Forwarded-For header, an absent
header reading as the empty string. -/
def x_forwarded_for_entries (headers : List (String × String)) : List String :=
  (splitCommaChars ((headerGet headers "X-Forwarded-For").getD "").toList).map String.mk

/-- The entry of X-Forwarded-For that the whitelist check trusts: the
second-from-last entry when there are at least two, otherwise the sole
entry, stripped of surrounding whitespace. -/
def x_forwarded_for_selected (headers : List (String × String)) : String :=
  let entries := x_forwarded_for_entries headers
  strip (entries.getD (entries.length - 2) "")

/-- Modelled from the spec: the middleware that performs the
X-Forwarded-For whitelist check is not under src.  src/core/app.py line 92
passes ip_whitelist to an authenticator variant whose definition is
missing; the app_server.py under src has no such check.  The spec (section
4.7 step 4) trusts the second-from-last entry and rejects with 401 and the
INCORRECT text.  The spec additionally demands at least two entries, but
the tests under src refute that: test_post_returns_object sends the single
entry 1.2.3.4 and asserts 200, while test_at_end_x_forwarded_for_401 sends
3.4.5.6,1.2.3.4 and asserts 401, and no uniform transformation of the test
headers reconciles a strict at-least-two rule with the suite.  The unique
natural rule satisfying both the spec wording and every test selects the
second-from-last entry when there are at least two and the sole entry
otherwise, as in Python split(",")[-2:][0].strip(). -/
def x_forwarded_for_check (ip_whitelist : List String)
    (headers : List (String × String)) : Option String :=
  if ip_whitelist.contains (x_forwarded_for_selected headers) then none
  else some INCORRECT

/-- The incoming middleware pipeline: the X-Forwarded-For whitelist check
(which the tests place before the header checks: test_no_x_forwarded_for_401
sends a request that also lacks X-Forwarded-Proto and still receives the
INCORRECT text), then the authenticator of app_server.py. -/
def incoming_pipeline (ip_whitelist : List String) (incoming_key_pairs : List KeyPair)
    (nonce_expire : Nat) (kv : KV) (now : Nat) (req : Request) :
    Decision × KV × List (String × Nat) :=
  match x_forwarded_for_check ip_whitelist req.headers with
  | some msg => (Decision.reject 401 msg, kv, [])
  | none => authenticator_step incoming_key_pairs nonce_expire kv now req

/-! ## Responses -/

/-- An HTTP response: status code and body text. -/
structure HttpResponse where
  status : Nat
  body : String
deriving DecidableEq

/-- The JSON error body produced for HTTP exceptions, as asserted verbatim
by the tests, for example by test_bad_id_then_401. -/
def json_details (msg : String) : String :=
  "\x7b\"details\": \"" ++ msg ++ "\"\x7d"

def error_response (status : Nat) (msg : String) : HttpResponse :=
  { status := status, body := json_details msg }

/-- Rendering a middleware decision as the response the caller sees: a
rejection becomes the JSON details body with its status (the
convert_errors_to_json middleware of app_server.py lines 144 to 156), and a
forwarded request yields the handler response. -/
def render (d : Decision) (handler_response : HttpResponse) : HttpResponse :=
  match d with
  | Decision.reject status text => error_response status text
  | Decision.forward _ _ => handler_response

/-! ## Demonstration fixtures, mirroring the values used by the tests -/

def demo_key_pairs : List KeyPair :=
  [{ key_id := "incoming-some-id-1", secret_key := "incoming-some-secret-1",
     permissions := ["POST"] }]

def demo_request : Request :=
  { method := "POST",
    headers := [("X-Forwarded-Proto", "http"), ("Authorization", "Hawk-header"),
                ("Content-Type", ""), ("X-Forwarded-For", "1.2.3.4")],
    authParsed := some { id := "incoming-some-id-1", nonce := "c29tZX" },
    macValid := true }

def demo_request_bad_xff : Request :=
  { demo_request with
    headers := [("X-Forwarded-Proto", "http"), ("Authorization", "Hawk-header"),
                ("Content-Type", ""), ("X-Forwarded-For", "3.4.5.6,1.2.3.4")] }

def demo_request_no_xfp : Request :=
  { demo_request with
    headers := [("Authorization", "Hawk-header"), ("Content-Type", ""),
                ("X-Forwarded-For", "1.2.3.4")] }

def demo_request_bad_mac : Request :=
  { demo_request with macValid := false }

/-! ## The restart wrapper repeat_even_on_exception
(src/core/app.py lines 121 to 136) -/

/-- EXCEPTION_INTERVAL from src/core/app.py line 29 (also
src/core/app/app_outgoing.py line 51). -/
def EXCEPTION_INTERVAL : Nat := 60

/-- The outcome of one execution of the wrapped coroutine: it returned, it
was cancelled (asyncio throws CancelledError into the coroutine, a
BaseException), or it raised some other exception. -/
inductive RunOutcome where
  | ok
  | cancelled
  | raised
deriving DecidableEq

/-- Observable events of the supervision wrappers. -/
inductive SupEvent where
  | runTask
  | logRaised
  | logFinished
  | sleepSecs (n : Nat)
  | terminated
deriving DecidableEq

/-- repeat_even_on_exception from src/core/app.py lines 121 to 136, as the
trace over a finite prefix of run outcomes of its infinite loop: each
iteration awaits the coroutine; except BaseException (which includes
cancellation) logs the raised warning, the else branch logs the
finished-without-exception warning, and the finally branch always sleeps
EXCEPTION_INTERVAL before the next iteration.  The wrapper never
terminates on its own, so no terminated event is ever emitted. -/
def repeat_even_on_exception_trace : List RunOutcome → List SupEvent
  | [] => []
  | o :: os =>
    [SupEvent.runTask] ++
    (match o with
     | RunOutcome.ok => [SupEvent.logFinished]
     | RunOutcome.cancelled => [SupEvent.logRaised]
     | RunOutcome.raised => [SupEvent.logRaised]) ++
    [SupEvent.sleepSecs EXCEPTION_INTERVAL] ++
    repeat_even_on_exception_trace os

/-! ## The lock refresh loop (src/core/app/app_outgoing.py lines 94 to 140) -/

/-- Observable events of acquire_and_keep_lock: Redis commands, the sleep
calls, the raise of the lock-lost exception, the restart wrapper catching
it, and a process exit (which never occurs: the extend task is created
with create_task and never awaited, and its wrapper catches every
non-cancellation exception). -/
inductive LockEvent where
  | sleepSecs (n : Nat)
  | redisSetNxEx (key : String) (ttl : Nat)
  | redisExpire (key : String) (ttl : Nat)
  | raiseLockLost
  | caughtByWrapper
  | processExit
deriving DecidableEq

/-- ttl from src/core/app/app_outgoing.py line 113. -/
def lock_ttl : Nat := 2

/-- extend_interval from src/core/app/app_outgoing.py line 115. -/
def extend_interval : Nat := 1

/-- aquire_interval from src/core/app/app_outgoing.py line 114 (spelling
as in the source). -/
def aquire_interval : Nat := 1

/-- One run of the extend_forever body (lines 128 to 133): sleep
extend_interval, issue EXPIRE lock 2, and raise the lock-lost exception
when the reply is not 1.  The argument is the Redis reply. -/
def extend_forever_events (reply : Int) : List LockEvent :=
  [LockEvent.sleepSecs extend_interval, LockEvent.redisExpire "lock" lock_ttl] ++
  (if reply = 1 then [] else [LockEvent.raiseLockLost])

/-- Modelled from the spec: async_repeat_until_cancelled lives in
core/app/app_utils.py, which is not under src.  Per the spec (section 9,
restart discipline) it runs the task forever, catching every
non-cancellation error, reporting it, sleeping the configured exception
interval and re-running; cancellation terminates it.  acquire_and_keep_lock
wraps extend_forever in it with extend_interval as the exception interval
(lines 136 to 140).  The trace is over a finite prefix of EXPIRE replies;
after a normal return the wrapper re-runs immediately, after a raise it
catches, sleeps the interval, and re-runs.  No SET command and no process
exit ever appears in this trace. -/
def extend_forever_wrapped : List Int → List LockEvent
  | [] => []
  | reply :: replies =>
    extend_forever_events reply ++
    (if reply = 1 then [] else [LockEvent.caughtByWrapper, LockEvent.sleepSecs extend_interval]) ++
    extend_forever_wrapped replies

/-- The acquire loop (lines 118 to 126): every attempt issues
SET lock 1 EX 2 NX; a failure sleeps aquire_interval and retries; the trace
is over the attempt outcomes ending on the first success. -/
def acquire_events : List Bool → List LockEvent
  | [] => []
  | okReply :: rest =>
    [LockEvent.redisSetNxEx "lock" lock_ttl] ++
    (if okReply then [] else [LockEvent.sleepSecs aquire_interval] ++ acquire_events rest)

/-- acquire_and_keep_lock overall: the acquire loop, then the wrapped
extend_forever task. -/
def acquire_and_keep_lock_trace (attempts : List Bool) (replies : List Int) : List LockEvent :=
  acquire_events attempts ++ extend_forever_wrapped replies

/-! ## The per-feed full rebuild ingest_feed
(src/core/app/app_outgoing.py lines 179 to 223) -/

/-- A feed endpoint, with the fields of the claims: the stable unique id
and the two polling intervals (src/core/app/app_feeds.py is not under src;
these attribute names are those read by app_outgoing.py). -/
structure FeedEndpoint where
  unique_id : String
  seed : String
  polling_page_interval : Nat
  polling_seed_interval : Nat
deriving DecidableEq

/-- The outcome of one page fetch of the walk inside ingest_feed: how many
bulk items the page converted to, and the next href (none terminates the
walk). -/
structure FetchedPage where
  bulk_items : Nat
  next_href : Option String
deriving DecidableEq

/-- Externally visible effects of the per-feed ingest task.  The
kvSetFeedStatus constructor stands for the Redis write of a per-feed
status flag that the spec demands and that handle_get_check reads through
get_feeds_status; ingest_feed never performs it (it has no Redis client in
scope). -/
inductive IngestEvent where
  | getOldIndexNames
  | deleteIndexes (names : List String)
  | createIndex (name : String)
  | createMapping (name : String)
  | fetchPage
  | bulkInsert (index : String) (items : Nat)
  | sleepSecs (n : Nat)
  | refreshIndex (name : String)
  | aliasSwap (new_index : String) (feed_id : String)
  | kvSetFeedStatus (feed_id : String) (value : String)
deriving DecidableEq

/-- A simple substring test on character lists. -/
def listStartsWith : List Char → List Char → Bool
  | _, [] => true
  | [], _ :: _ => false
  | c :: cs, d :: ds => c == d && listStartsWith cs ds

def listHasSub (l pat : List Char) : Bool :=
  if listStartsWith l pat then true
  else
    match l with
    | [] => pat.isEmpty
    | _ :: rest => listHasSub rest pat

/-- Modelled from the spec: indexes_matching_feeds lives in
core/app/app_elasticsearch.py, which is not under src.  Per the spec
(section 4.3) it filters index names by the marker
__feed_id__<unique_id>__ as a substring. -/
def indexes_matching_feeds (indexes : List String) (feed_ids : List String) : List String :=
  indexes.filter (fun idx =>
    feed_ids.any (fun fid => listHasSub idx.toList ("__feed_id__" ++ fid ++ "__").toList))

/-- The events of ingest_feed_page followed by the sleep that ingest_feed
performs with the returned interval (lines 203 to 213 and 226 to 264):
fetch the page, bulk insert the converted items into the current index,
then sleep the page interval when there is a next href and the seed
interval otherwise. -/
def ingest_feed_page_events (feed : FeedEndpoint) (index_name : String)
    (page : FetchedPage) : List IngestEvent :=
  [IngestEvent.fetchPage, IngestEvent.bulkInsert index_name page.bulk_items,
   IngestEvent.sleepSecs
     (if page.next_href.isSome then feed.polling_page_interval
      else feed.polling_seed_interval)]

/-- ingest_feed from src/core/app/app_outgoing.py lines 179 to 223, as the
trace of one full rebuild: list old index names, delete the alias-less
indexes of this feed, create the new index (its fresh name, produced by
get_new_index_name, is a parameter) and its mapping, walk the pages (the
successive fetch outcomes are a parameter; the walk ends when a page has no
next href), then refresh the new index and swap the alias atomically.
Nothing else follows: in particular no Redis write of a feed status flag
occurs anywhere in the task. -/
def ingest_feed_trace (feed : FeedEndpoint) (indexes_without_alias : List String)
    (index_name : String) (pages : List FetchedPage) : List IngestEvent :=
  [IngestEvent.getOldIndexNames,
   IngestEvent.deleteIndexes (indexes_matching_feeds indexes_without_alias [feed.unique_id]),
   IngestEvent.createIndex index_name,
   IngestEvent.createMapping index_name] ++
  pages.flatMap (ingest_feed_page_events feed index_name) ++
  [IngestEvent.refreshIndex index_name,
   IngestEvent.aliasSwap index_name feed.unique_id]

/-! ## The liveness handler handle_get_check
(src/core/app/app_server.py lines 195 to 245) -/

/-- all_green from line 228: redis green, elasticsearch green, and either
every feed green or still within the startup grace period. -/
def allGreen (is_redis_green is_elasticsearch_green : Bool)
    (feeds_statuses : List (Option String)) (in_grace_period : Bool) : Bool :=
  is_redis_green && is_elasticsearch_green &&
    (feeds_statuses.all (fun s => s == some "GREEN") || in_grace_period)

/-- handle_get_check from src/core/app/app_server.py lines 195 to 245.
Inputs are the outcomes of its awaits: the GET reply for the redis-check
key, the minimum verification age from Elasticsearch, whether uptime is
within the 30 second grace period, and the per-feed pairs of unique id and
Redis status reply.  The body is the plaintext status and the HTTP status
is always 200. -/
def handle_get_check (redis_check_reply : Option String) (min_age : Nat)
    (in_grace_period : Bool) (feeds : List (String × Option String)) : HttpResponse :=
  let is_redis_green := redis_check_reply == some "GREEN"
  let is_elasticsearch_green := decide (min_age < 60)
  let all_green :=
    allGreen is_redis_green is_elasticsearch_green (feeds.map Prod.snd) in_grace_period
  let body :=
    (if all_green then "__UP__" else "__DOWN__") ++
    (if in_grace_period then " (IN_STARTUP_GRACE_PERIOD)" else "") ++ "\n" ++
    ("redis:" ++ (if is_redis_green then "GREEN" else "RED")) ++ "\n" ++
    ("elasticsearch:" ++ (if is_elasticsearch_green then "GREEN" else "RED")) ++ "\n" ++
    String.join (feeds.map (fun f =>
      f.1 ++ ":" ++ (if f.2 == some "GREEN" then "GREEN" else "RED") ++ "\n"))
  { status := 200, body := body }

/-! ## Python json.dumps with sort_keys=True, and es_bulk
(src/core/app.py lines 195 to 200)

Python strings are modelled as lists of characters in this section, so that
line structure can be reasoned about directly.  json.dumps is modelled with
its default separators (a comma-space between members, a colon-space inside
members) and its default escaping of the quote, the backslash and control
characters; non-ASCII characters are left unescaped, a divergence from
ensure_ascii that no claim depends on (both forms are newline-free). -/

/-- JSON values, the shapes that json.dumps serialises. -/
inductive Json where
  | null
  | bool (b : Bool)
  | num (n : Int)
  | str (s : String)
  | arr (items : List Json)
  | obj (fields : List (String × Json))

/-- The sixteen lowercase hexadecimal digit characters (the first ten are
also the decimal digit characters). -/
def hexDigitChar : Nat → Char
  | 0 => '0' | 1 => '1' | 2 => '2' | 3 => '3' | 4 => '4' | 5 => '5' | 6 => '6' | 7 => '7'
  | 8 => '8' | 9 => '9' | 10 => 'a' | 11 => 'b' | 12 => 'c' | 13 => 'd' | 14 => 'e' | _ => 'f'

/-- Decimal digits of a natural number, most significant first, as in
Python str. -/
def natDigitsGo (n : Nat) (acc : List Char) : List Char :=
  if n < 10 then hexDigitChar n :: acc
  else natDigitsGo (n / 10) (hexDigitChar (n % 10) :: acc)
termination_by n
decreasing_by exact Nat.div_lt_self (by omega) (by omega)

/-- The characters of the decimal representation of an integer. -/
def intChars (n : Int) : List Char :=
  if n < 0 then '-' :: natDigitsGo n.natAbs [] else natDigitsGo n.natAbs []

/-- One escaped character of a JSON string literal, following json.dumps:
quote, backslash, the named control escapes, a u-escape for the remaining
control characters, and every other character itself. -/
def escapeChar (c : Char) : List Char :=
  if c = '"' then ['\\', '"']
  else if c = '\\' then ['\\', '\\']
  else if c = '\n' then ['\\', 'n']
  else if c = '\r' then ['\\', 'r']
  else if c = '\t' then ['\\', 't']
  else if c = '\x08' then ['\\', 'b']
  else if c = '\x0c' then ['\\', 'f']
  else if c.toNat < 32 then
    ['\\', 'u', '0', '0', hexDigitChar (c.toNat / 16), hexDigitChar (c.toNat % 16)]
  else [c]

/-- A JSON string literal: quote, escaped characters, quote. -/
def quoteStr (s : String) : List Char :=
  '"' :: (s.toList.flatMap escapeChar ++ ['"'])

/-- The comma-space join of the serialised members, the default json.dumps
separator. -/
def commaJoin : List (List Char) → List Char
  | [] => []
  | [l] => l
  | l :: l2 :: ls => l ++ ',' :: ' ' :: commaJoin (l2 :: ls)

/-- Ordering of serialised object members by their original key, the order
produced by sort_keys=True (Python compares strings by code point). -/
def keyLeP (a b : String × List Char) : Prop := a.1 ≤ b.1

instance keyLeP_decidable : DecidableRel keyLeP :=
  fun a b => inferInstanceAs (Decidable (a.1 ≤ b.1))

instance keyLeP_total : IsTotal (String × List Char) keyLeP :=
  ⟨fun a b => le_total a.1 b.1⟩

instance keyLeP_trans : IsTrans (String × List Char) keyLeP :=
  ⟨fun _ _ _ h1 h2 => le_trans h1 h2⟩

/-- One rendered object member: quoted key, colon, space, serialised
value. -/
def renderField (kv : String × List Char) : List Char :=
  quoteStr kv.1 ++ ':' :: ' ' :: kv.2

mutual

/-- json.dumps.  Object members are serialised first and then ordered by
key, which yields the same characters as sorting the keys before
serialising, since the sort key is the original key string and Python dict
keys are unique. -/
def dumps : Json → List Char
  | Json.null => "null".toList
  | Json.bool true => "true".toList
  | Json.bool false => "false".toList
  | Json.num n => intChars n
  | Json.str s => quoteStr s
  | Json.arr items => '[' :: (commaJoin (dumpsList items) ++ [']'])
  | Json.obj fields =>
    '\x7b' ::
      (commaJoin ((List.insertionSort keyLeP (dumpsFields fields)).map renderField) ++
       ['\x7d'])

def dumpsList : List Json → List (List Char)
  | [] => []
  | x :: xs => dumps x :: dumpsList xs

def dumpsFields : List (String × Json) → List (String × List Char)
  | [] => []
  | (k, v) :: fs => (k, dumps v) :: dumpsFields fs

end

/-- Modelled from the spec: flatten lives in core/app_utils.py, which is
not under src (the tests import it); per its uses it concatenates a list
of lists. -/
def flatten (ll : List (List α)) : List α := ll.flatMap id

/-- One bulk item: the index action line and the document line,
as the pairs described in the spec (section 4.3 bulk contract). -/
structure BulkItem where
  action_and_metadata : Json
  source : Json

/-- The newline join of Python str.join. -/
def joinNl : List (List Char) → List Char
  | [] => []
  | [l] => l
  | l :: l2 :: ls => l ++ '\n' :: joinNl (l2 :: ls)

/-- es_bulk from src/core/app.py lines 195 to 200: for each item the
serialisation of its action_and_metadata and of its source, both with
sorted keys, joined by newlines, with one newline appended. -/
def es_bulk (items : List BulkItem) : List Char :=
  joinNl (flatten (items.map (fun item =>
    [dumps item.action_and_metadata, dumps item.source]))) ++ ['\n']

/-- The expected lines of the bulk payload, in order for each item. -/
def es_bulk_lines (items : List BulkItem) : List (List Char) :=
  items.flatMap (fun item => [dumps item.action_and_metadata, dumps item.source])

/-- Splitting a character list at newlines, the line structure of a
payload: splitting s ++ [newline] yields the lines of s followed by one
empty tail entry. -/
def splitNl : List Char → List (List Char)
  | [] => [[]]
  | c :: cs =>
    if c = '\n' then [] :: splitNl cs
    else
      match splitNl cs with
      | [] => [[c]]
      | l :: ls => (c :: l) :: ls

/-- The resource that the mohawk Receiver yields for demo_request. -/
def demo_resource : Resource :=
  { nonce := "c29tZX",
    credentials := { id := "incoming-some-id-1", key := "incoming-some-secret-1",
                     permissions := ["POST"], algorithm := "sha256" } }

/-- Concrete bulk items with deliberately unsorted keys, for the witness. -/
def demo_bulk_items : List BulkItem :=
  [{ action_and_metadata :=
       Json.obj [("index",
         Json.obj [("_type", Json.str "_doc"), ("_index", Json.str "activities"),
                   ("_id", Json.str "dit:exportOpportunities:Enquiry:49863:Create")])],
     source :=
       Json.obj [("type", Json.str "Create"),
                 ("published", Json.str "2018-04-12T12:48:13+00:00")] }]

/-! ## The AWS SigV4 signer es_bulk_auth_headers
(src/core/app.py lines 203 to 246)

The signer is embedded structurally, parameterised over the two
cryptographic primitives of hashlib and hmac (the hex digest of SHA-256
and the raw HMAC-SHA256 digest), which are external to the repository.
The concrete test vector of the spec (section 8, scenario 2) depends on
the mock environment and feed fixture bytes of core/tests_utils.py and of
the fixture files, none of which are under src, so it is not reproduced
here; the embedding fixes the canonical request shape, the signed header
list and the four-step key derivation chain exactly as the source does. -/

/-- The two primitives the signer calls: sha256_hexdigest is
hashlib.sha256(payload).hexdigest(), and hmac_digest key msg is
hmac.new(key, msg, hashlib.sha256).digest(); payloads, keys and digests
are byte lists. -/
structure SigV4Primitives where
  sha256_hexdigest : List Nat → String
  hmac_digest : List Nat → List Nat → List Nat
  digest_hex : List Nat → String
  utf8 : String → List Nat

/-- es_bulk_auth_headers from src/core/app.py lines 203 to 246, with the
current instant already formatted as amzdate and datestamp.  Returns the
x-amz-date and Authorization headers. -/
def es_bulk_auth_headers (P : SigV4Primitives) (access_key secret_key region host path : String)
    (payload : List Nat) (amzdate datestamp : String) : List (String × String) :=
  let service := "es"
  let method := "POST"
  let signed_headers := "content-type;host;x-amz-date"
  let algorithm := "AWS4-HMAC-SHA256"
  let credential_scope := datestamp ++ "/" ++ region ++ "/" ++ service ++ "/aws4_request"
  let canonical_uri := path
  let canonical_querystring := ""
  let canonical_headers :=
    "content-type:application/x-ndjson" ++ "\n" ++
    "host:" ++ host ++ "\n" ++ "x-amz-date:" ++ amzdate ++ "\n"
  let payload_hash := P.sha256_hexdigest payload
  let canonical_request :=
    method ++ "\n" ++ canonical_uri ++ "\n" ++ canonical_querystring ++ "\n" ++
    canonical_headers ++ "\n" ++ signed_headers ++ "\n" ++ payload_hash
  let string_to_sign :=
    algorithm ++ "\n" ++ amzdate ++ "\n" ++ credential_scope ++ "\n" ++
    P.sha256_hexdigest (P.utf8 canonical_request)
  let sign := fun (key : List Nat) (msg : String) => P.hmac_digest key (P.utf8 msg)
  let date_key := sign (P.utf8 ("AWS4" ++ secret_key)) datestamp
  let region_key := sign date_key region
  let service_key := sign region_key service
  let request_key := sign service_key "aws4_request"
  let signature := P.digest_hex (sign request_key string_to_sign)
  [("x-amz-date", amzdate),
   ("Authorization",
     algorithm ++ " Credential=" ++ access_key ++ "/" ++ credential_scope ++ ", " ++
     "SignedHeaders=" ++ signed_headers ++ ", Signature=" ++ signature)]

/-! ## Helper lemmas: the serialised JSON of a value contains no newline
and is nonempty -/

theorem hexDigitChar_ne_nl (k : Nat) : hexDigitChar k ≠ '\n' := by
  match k with
  | 0 => decide
  | 1 => decide
  | 2 => decide
  | 3 => decide
  | 4 => decide
  | 5 => decide
  | 6 => decide
  | 7 => decide
  | 8 => decide
  | 9 => decide
  | 10 => decide
  | 11 => decide
  | 12 => decide
  | 13 => decide
  | 14 => decide
  | n + 15 =>
    show 'f' ≠ '\n'
    decide

theorem natDigitsGo_ne_nl (n : Nat) (acc : List Char) (hacc : '\n' ∉ acc) :
    '\n' ∉ natDigitsGo n acc := by
  induction n using Nat.strong_induction_on generalizing acc with
  | _ n ih =>
    unfold natDigitsGo
    split
    · intro hc
      rcases List.mem_cons.mp hc with h | h
      · exact hexDigitChar_ne_nl n h.symm
      · exact hacc h
    · refine ih (n / 10) (Nat.div_lt_self (by omega) (by omega)) _ ?_
      intro hc
      rcases List.mem_cons.mp hc with h | h
      · exact hexDigitChar_ne_nl (n % 10) h.symm
      · exact hacc h

theorem natDigitsGo_ne_nil (n : Nat) (acc : List Char) : natDigitsGo n acc ≠ [] := by
  unfold natDigitsGo
  split
  · exact List.cons_ne_nil _ _
  · exact natDigitsGo_ne_nil (n / 10) _
termination_by n
decreasing_by exact Nat.div_lt_self (by omega) (by omega)

theorem intChars_ne_nl (n : Int) : '\n' ∉ intChars n := by
  unfold intChars
  split
  · intro hc
    rcases List.mem_cons.mp hc with h | h
    · exact absurd h.symm (by decide)
    · exact natDigitsGo_ne_nl _ [] (by simp) h
  · exact natDigitsGo_ne_nl _ [] (by simp)

theorem intChars_ne_nil (n : Int) : intChars n ≠ [] := by
  unfold intChars
  split
  · exact List.cons_ne_nil _ _
  · exact natDigitsGo_ne_nil _ _

theorem escapeChar_ne_nl (c : Char) : '\n' ∉ escapeChar c := by
  unfold escapeChar
  split_ifs with h1 h2 h3 h4 h5 h6 h7 h8
  · decide
  · decide
  · decide
  · decide
  · decide
  · decide
  · decide
  · intro hc
    simp only [List.mem_cons, List.not_mem_nil, or_false] at hc
    rcases hc with h | h | h | h | h | h
    · exact absurd h (by decide)
    · exact absurd h (by decide)
    · exact absurd h (by decide)
    · exact absurd h (by decide)
    · exact hexDigitChar_ne_nl _ h.symm
    · exact hexDigitChar_ne_nl _ h.symm
  · intro hc
    simp only [List.mem_cons, List.not_mem_nil, or_false] at hc
    exact h3 hc.symm

theorem quoteStr_ne_nl (s : String) : '\n' ∉ quoteStr s := by
  unfold quoteStr
  intro hc
  rcases List.mem_cons.mp hc with h | h
  · exact absurd h.symm (by decide)
  · rcases List.mem_append.mp h with h | h
    · rcases List.mem_flatMap.mp h with ⟨c, _, hc2⟩
      exact escapeChar_ne_nl c hc2
    · simp only [List.mem_cons, List.not_mem_nil, or_false] at h
      exact absurd h.symm (by decide)

theorem commaJoin_ne_nl (L : List (List Char)) (hL : ∀ l ∈ L, '\n' ∉ l) :
    '\n' ∉ commaJoin L := by
  match L with
  | [] => simp [commaJoin]
  | [l] => simpa [commaJoin] using hL l (by simp)
  | l :: l2 :: ls =>
    unfold commaJoin
    intro hc
    rcases List.mem_append.mp hc with h | h
    · exact hL l (by simp) h
    · rcases List.mem_cons.mp h with h | h
      · exact absurd h.symm (by decide)
      · rcases List.mem_cons.mp h with h | h
        · exact absurd h.symm (by decide)
        · exact commaJoin_ne_nl (l2 :: ls) (fun x hx => hL x (List.mem_cons_of_mem _ hx)) h

theorem renderField_ne_nl (kv : String × List Char) (hv : '\n' ∉ kv.2) :
    '\n' ∉ renderField kv := by
  unfold renderField
  intro hc
  rcases List.mem_append.mp hc with h | h
  · exact quoteStr_ne_nl _ h
  · rcases List.mem_cons.mp h with h | h
    · exact absurd h.symm (by decide)
    · rcases List.mem_cons.mp h with h | h
      · exact absurd h.symm (by decide)
      · exact hv h

mutual

theorem dumps_ne_nl : ∀ (j : Json), '\n' ∉ dumps j
  | Json.null => by decide
  | Json.bool true => by decide
  | Json.bool false => by decide
  | Json.num n => intChars_ne_nl n
  | Json.str s => quoteStr_ne_nl s
  | Json.arr items => by
    unfold dumps
    intro hc
    rcases List.mem_cons.mp hc with h | h
    · exact absurd h.symm (by decide)
    · rcases List.mem_append.mp h with h | h
      · exact commaJoin_ne_nl _ (fun l hl => dumpsList_ne_nl items l hl) h
      · simp only [List.mem_cons, List.not_mem_nil, or_false] at h
        exact absurd h.symm (by decide)
  | Json.obj fields => by
    unfold dumps
    intro hc
    rcases List.mem_cons.mp hc with h | h
    · exact absurd h.symm (by decide)
    · rcases List.mem_append.mp h with h | h
      · refine commaJoin_ne_nl _ (fun l hl => ?_) h
        rcases List.mem_map.mp hl with ⟨kv, hkv, rfl⟩
        have hkv2 : kv ∈ dumpsFields fields :=
          (List.perm_insertionSort keyLeP (dumpsFields fields)).mem_iff.mp hkv
        exact renderField_ne_nl kv (dumpsFields_ne_nl fields kv hkv2)
      · simp only [List.mem_cons, List.not_mem_nil, or_false] at h
        exact absurd h.symm (by decide)

theorem dumpsList_ne_nl : ∀ (xs : List Json) (l : List Char), l ∈ dumpsList xs → '\n' ∉ l
  | [], l, hl => by simp [dumpsList] at hl
  | x :: xs, l, hl => by
    unfold dumpsList at hl
    rcases List.mem_cons.mp hl with h | h
    · exact h ▸ dumps_ne_nl x
    · exact dumpsList_ne_nl xs l h

theorem dumpsFields_ne_nl :
    ∀ (fs : List (String × Json)) (kv : String × List Char), kv ∈ dumpsFields fs → '\n' ∉ kv.2
  | [], kv, hkv => by simp [dumpsFields] at hkv
  | (k, v) :: fs, kv, hkv => by
    unfold dumpsFields at hkv
    rcases List.mem_cons.mp hkv with h | h
    · exact h ▸ dumps_ne_nl v
    · exact dumpsFields_ne_nl fs kv h

end

theorem dumps_ne_nil (j : Json) : dumps j ≠ [] := by
  match j with
  | Json.null => decide
  | Json.bool true => decide
  | Json.bool false => decide
  | Json.num n => exact intChars_ne_nil n
  | Json.str s =>
    unfold dumps quoteStr
    exact List.cons_ne_nil _ _
  | Json.arr items =>
    unfold dumps
    exact List.cons_ne_nil _ _
  | Json.obj fields =>
    unfold dumps
    exact List.cons_ne_nil _ _

/-! ## Helper lemmas: line structure of the joined payload -/

theorem splitNl_append_line (l rest : List Char) (hl : '\n' ∉ l) :
    splitNl (l ++ '\n' :: rest) = l :: splitNl rest := by
  induction l with
  | nil => simp [splitNl]
  | cons c cs ih =>
    have hc : ¬ c = '\n' := by
      rintro rfl
      exact hl (List.mem_cons_self _ _)
    have hcs : '\n' ∉ cs := fun h => hl (List.mem_cons_of_mem c h)
    simp only [List.cons_append, splitNl, if_neg hc]
    rw [show cs.append ('\n' :: rest) = cs ++ '\n' :: rest from rfl, ih hcs]

theorem splitNl_joinNl (L : List (List Char)) (hL : ∀ l ∈ L, '\n' ∉ l) (hne : L ≠ []) :
    splitNl (joinNl L ++ ['\n']) = L ++ [[]] := by
  match L with
  | [l] =>
    rw [show joinNl [l] = l from rfl, splitNl_append_line l [] (hL l (by simp))]
    rfl
  | l :: l2 :: ls =>
    rw [show joinNl (l :: l2 :: ls) = l ++ '\n' :: joinNl (l2 :: ls) from rfl,
        List.append_assoc]
    rw [show ('\n' :: joinNl (l2 :: ls)) ++ ['\n'] = '\n' :: (joinNl (l2 :: ls) ++ ['\n'])
          from rfl]
    rw [splitNl_append_line l _ (hL l (by simp)),
        splitNl_joinNl (l2 :: ls) (fun x hx => hL x (List.mem_cons_of_mem _ hx))
          (List.cons_ne_nil _ _)]
    rfl

theorem joinNl_getLast?_ne_nl (L : List (List Char)) (hL : ∀ l ∈ L, '\n' ∉ l)
    (hnonempty : ∀ l ∈ L, l ≠ []) : (joinNl L).getLast? ≠ some '\n' := by
  match L with
  | [] => simp [joinNl]
  | [l] =>
    intro h
    have h2 : '\n' ∈ l.getLast? := by
      rw [Option.mem_def]
      exact h
    rcases List.mem_getLast?_eq_getLast h2 with ⟨hn, heq⟩
    exact hL l (by simp) (heq ▸ List.getLast_mem hn)
  | l :: l2 :: ls =>
    have hrec := joinNl_getLast?_ne_nl (l2 :: ls)
      (fun x hx => hL x (List.mem_cons_of_mem _ hx))
      (fun x hx => hnonempty x (List.mem_cons_of_mem _ hx))
    intro h
    rw [show joinNl (l :: l2 :: ls) = l ++ '\n' :: joinNl (l2 :: ls) from rfl,
        List.getLast?_append_cons] at h
    cases hJ : joinNl (l2 :: ls) with
    | nil =>
      cases ls with
      | nil => exact hnonempty l2 (by simp) hJ
      | cons l3 ls2 => simp [joinNl] at hJ
    | cons j js =>
      rw [hJ, List.getLast?_cons_cons] at h
      rw [hJ] at hrec
      exact hrec h

theorem flatten_map_pair (items : List BulkItem) :
    flatten (items.map (fun item => [dumps item.action_and_metadata, dumps item.source])) =
      es_bulk_lines items := by
  induction items with
  | nil => rfl
  | cons it its ih =>
    simp only [List.map_cons, flatten, List.flatMap_cons, es_bulk_lines] at *
    rw [ih]
    rfl

theorem es_bulk_lines_ne_nl (items : List BulkItem) :
    ∀ l ∈ es_bulk_lines items, '\n' ∉ l := by
  intro l hl
  rcases List.mem_flatMap.mp hl with ⟨item, _, hmem⟩
  rcases List.mem_cons.mp hmem with h | h
  · exact h ▸ dumps_ne_nl _
  · simp only [List.mem_cons, List.not_mem_nil, or_false] at h
    exact h ▸ dumps_ne_nl _

theorem es_bulk_lines_ne_nil (items : List BulkItem) :
    ∀ l ∈ es_bulk_lines items, l ≠ [] := by
  intro l hl
  rcases List.mem_flatMap.mp hl with ⟨item, _, hmem⟩
  rcases List.mem_cons.mp hmem with h | h
  · exact h ▸ dumps_ne_nil _
  · simp only [List.mem_cons, List.not_mem_nil, or_false] at h
    exact h ▸ dumps_ne_nil _

theorem es_bulk_eq_joinNl (items : List BulkItem) :
    es_bulk items = joinNl (es_bulk_lines items) ++ ['\n'] := by
  unfold es_bulk
  rw [flatten_map_pair]

/-! ## Claim C4: structure of the bulk payload -/

/-- C4: for every list of bulk items, es_bulk ends with exactly one
trailing newline character, its lines are, in order for each item, the
serialisation of its action_and_metadata followed by the serialisation of
its source, and object members are emitted with their keys sorted (a
stable, deterministic order). -/
theorem c4_es_bulk (items : List BulkItem) :
    (es_bulk items).getLast? = some '\n' ∧
    (∃ s, es_bulk items = s ++ ['\n'] ∧ s.getLast? ≠ some '\n') ∧
    (items ≠ [] → splitNl (es_bulk items) = es_bulk_lines items ++ [[]]) ∧
    (∀ fields : List (String × Json),
      dumps (Json.obj fields) =
        '\x7b' ::
          (commaJoin ((List.insertionSort keyLeP (dumpsFields fields)).map renderField) ++
           ['\x7d']) ∧
      ((List.insertionSort keyLeP (dumpsFields fields)).map Prod.fst).Sorted (· ≤ ·) ∧
      (List.insertionSort keyLeP (dumpsFields fields)).Perm (dumpsFields fields)) := by
  refine ⟨?_, ?_, ?_, ?_⟩
  · rw [es_bulk_eq_joinNl, List.getLast?_append_cons]
    rfl
  · exact ⟨joinNl (es_bulk_lines items), es_bulk_eq_joinNl items,
      joinNl_getLast?_ne_nl _ (es_bulk_lines_ne_nl items) (es_bulk_lines_ne_nil items)⟩
  · intro h
    have hlinesne : es_bulk_lines items ≠ [] := by
      cases items with
      | nil => exact absurd rfl h
      | cons it its => simp [es_bulk_lines]
    rw [es_bulk_eq_joinNl]
    exact splitNl_joinNl _ (es_bulk_lines_ne_nl items) hlinesne
  · intro fields
    refine ⟨rfl, ?_, List.perm_insertionSort _ _⟩
    have h := List.sorted_insertionSort keyLeP (dumpsFields fields)
    exact List.Pairwise.map Prod.fst (fun a b hab => hab) h

/-- Witness for C4 at a concrete item list. -/
theorem c4_witness :
    demo_bulk_items ≠ [] ∧
    splitNl (es_bulk demo_bulk_items) = es_bulk_lines demo_bulk_items ++ [[]] := by
  constructor
  · simp [demo_bulk_items]
  · exact (c4_es_bulk demo_bulk_items).2.2.1 (by simp [demo_bulk_items])

/-! ## Claim C6: the restart wrapper and cancellation -/

/-- Counterexample to C6 as stated: a cancellation outcome does not
terminate repeat_even_on_exception.  It is caught by the except
BaseException branch, logged as a raised exception, followed by the
EXCEPTION_INTERVAL sleep, and the task is run again (here the trace of
cancellation followed by one more run records two runs and never a
termination). -/
theorem c6_counterexample :
    repeat_even_on_exception_trace [RunOutcome.cancelled] =
      [SupEvent.runTask, SupEvent.logRaised, SupEvent.sleepSecs EXCEPTION_INTERVAL] ∧
    (repeat_even_on_exception_trace [RunOutcome.cancelled, RunOutcome.ok]).count
        SupEvent.runTask = 2 ∧
    SupEvent.terminated ∉
      repeat_even_on_exception_trace [RunOutcome.cancelled, RunOutcome.ok] := by
  refine ⟨rfl, ?_, ?_⟩ <;> decide

/-- C6 amended: every run outcome of a task wrapped by
repeat_even_on_exception — exceptions, cancellation included, and even a
normal return — is followed by a logged warning and a sleep of
EXCEPTION_INTERVAL = 60 seconds before the task is run again from the
start; cancellation is handled exactly like any other exception and never
terminates the wrapper. -/
theorem c6_amended (outcomes : List RunOutcome) :
    SupEvent.terminated ∉ repeat_even_on_exception_trace outcomes ∧
    repeat_even_on_exception_trace (RunOutcome.cancelled :: outcomes) =
      [SupEvent.runTask, SupEvent.logRaised, SupEvent.sleepSecs EXCEPTION_INTERVAL] ++
        repeat_even_on_exception_trace outcomes ∧
    repeat_even_on_exception_trace (RunOutcome.cancelled :: outcomes) =
      repeat_even_on_exception_trace (RunOutcome.raised :: outcomes) ∧
    (repeat_even_on_exception_trace outcomes).count SupEvent.runTask = outcomes.length := by
  refine ⟨?_, rfl, rfl, ?_⟩
  · induction outcomes with
    | nil => simp [repeat_even_on_exception_trace]
    | cons o os ih => cases o <;> simp [repeat_even_on_exception_trace, ih]
  · induction outcomes with
    | nil => rfl
    | cons o os ih =>
      cases o <;>
        simp [repeat_even_on_exception_trace, List.count_append, List.count_cons, ih]

/-! ## Claim C5: loss of the lock -/

/-- Counterexample to C5 as stated: with EXPIRE replying 0 and then 1, the
refresh step raises the lock-lost exception, but the process does not
exit; the wrapper catches the exception and the refresh step runs again
(two EXPIRE commands appear in the trace). -/
theorem c5_counterexample :
    LockEvent.raiseLockLost ∈ extend_forever_wrapped [0, 1] ∧
    LockEvent.processExit ∉ extend_forever_wrapped [0, 1] ∧
    (extend_forever_wrapped [0, 1]).count (LockEvent.redisExpire "lock" lock_ttl) = 2 := by
  refine ⟨?_, ?_, ?_⟩ <;> decide

theorem extend_wrapped_raise_iff (replies : List Int) :
    LockEvent.raiseLockLost ∈ extend_forever_wrapped replies ↔ ∃ r ∈ replies, r ≠ 1 := by
  induction replies with
  | nil => simp [extend_forever_wrapped]
  | cons r rs ih =>
    by_cases hr : r = 1 <;>
      simp [extend_forever_wrapped, extend_forever_events, hr, ih]

theorem extend_wrapped_no_setnx (replies : List Int) (key : String) (ttl : Nat) :
    LockEvent.redisSetNxEx key ttl ∉ extend_forever_wrapped replies := by
  induction replies with
  | nil => simp [extend_forever_wrapped]
  | cons r rs ih =>
    by_cases hr : r = 1 <;>
      simp [extend_forever_wrapped, extend_forever_events, hr, ih]

theorem extend_wrapped_no_exit (replies : List Int) :
    LockEvent.processExit ∉ extend_forever_wrapped replies := by
  induction replies with
  | nil => simp [extend_forever_wrapped]
  | cons r rs ih =>
    by_cases hr : r = 1 <;>
      simp [extend_forever_wrapped, extend_forever_events, hr, ih]

theorem extend_wrapped_expire_count (replies : List Int) :
    (extend_forever_wrapped replies).count (LockEvent.redisExpire "lock" lock_ttl) =
      replies.length := by
  induction replies with
  | nil => rfl
  | cons r rs ih =>
    by_cases hr : r = 1 <;>
      simp [extend_forever_wrapped, extend_forever_events, hr,
        List.count_append, List.count_cons, ih]

/-- C5 amended: when an EXPIRE of the lock key replies with anything other
than 1, the refresh step raises the lock-lost exception and the lock is
never re-acquired (the refresh task never issues a SET command); however
the exception is caught by the restart wrapper, which sleeps the extend
interval and runs the refresh step again, and the process does not exit:
the lock-lost raise appears in a trace exactly when some reply differs
from 1, no SET and no process exit ever appears, and every reply is
followed by a further EXPIRE attempt. -/
theorem c5_amended (replies : List Int) :
    (LockEvent.raiseLockLost ∈ extend_forever_wrapped replies ↔ ∃ r ∈ replies, r ≠ 1) ∧
    (∀ key ttl, LockEvent.redisSetNxEx key ttl ∉ extend_forever_wrapped replies) ∧
    LockEvent.processExit ∉ extend_forever_wrapped replies ∧
    (extend_forever_wrapped replies).count (LockEvent.redisExpire "lock" lock_ttl) =
      replies.length :=
  ⟨extend_wrapped_raise_iff replies,
   fun key ttl => extend_wrapped_no_setnx replies key ttl,
   extend_wrapped_no_exit replies,
   extend_wrapped_expire_count replies⟩

/-! ## Claim C7: the per-feed rebuild never writes the GREEN status flag -/

/-- C7: every per-feed full rebuild ends with the refresh of the new index
followed by the atomic alias swap, and at no point does ingest_feed write
a feed status flag to the key-value store: the spec and the comment above
handle_get_check expect the outgoing application to report per-feed status
through Redis, but the task has no Redis client in scope and performs no
such write. -/
theorem c7_ingest_feed_no_green (feed : FeedEndpoint) (indexes_without_alias : List String)
    (index_name : String) (pages : List FetchedPage) :
    (∃ front, ingest_feed_trace feed indexes_without_alias index_name pages =
        front ++ [IngestEvent.refreshIndex index_name,
                  IngestEvent.aliasSwap index_name feed.unique_id]) ∧
    (∀ feed_id value,
      IngestEvent.kvSetFeedStatus feed_id value ∉
        ingest_feed_trace feed indexes_without_alias index_name pages) := by
  constructor
  · unfold ingest_feed_trace
    exact ⟨_, rfl⟩
  · intro feed_id value
    simp [ingest_feed_trace, ingest_feed_page_events]

/-! ## Claim C10: the liveness handler always responds 200 -/

/-- C10: handle_get_check always responds with HTTP status 200; the
computed liveness is conveyed only in the plaintext body, whose first
characters are DOWN exactly when the overall state is not green and UP
otherwise. -/
theorem c10_check_always_200 (redis_check_reply : Option String) (min_age : Nat)
    (in_grace_period : Bool) (feeds : List (String × Option String)) :
    (handle_get_check redis_check_reply min_age in_grace_period feeds).status = 200 ∧
    (allGreen (redis_check_reply == some "GREEN") (decide (min_age < 60))
        (feeds.map Prod.snd) in_grace_period = false →
      ∃ rest, (handle_get_check redis_check_reply min_age in_grace_period feeds).body =
        "__DOWN__" ++ rest) ∧
    (allGreen (redis_check_reply == some "GREEN") (decide (min_age < 60))
        (feeds.map Prod.snd) in_grace_period = true →
      ∃ rest, (handle_get_check redis_check_reply min_age in_grace_period feeds).body =
        "__UP__" ++ rest) := by
  refine ⟨rfl, ?_, ?_⟩
  · intro h
    exact ⟨_, by simp [handle_get_check, h, String.append_assoc]; rfl⟩
  · intro h
    exact ⟨_, by simp [handle_get_check, h, String.append_assoc]; rfl⟩

/-- Witness for C10: a concrete state that is down (one feed with no
status flag, outside the grace period) still yields status 200 with a body
opening with the DOWN marker. -/
theorem c10_witness :
    (handle_get_check (some "GREEN") 0 false [("first", none)]).status = 200 ∧
    ∃ rest, (handle_get_check (some "GREEN") 0 false [("first", none)]).body =
      "__DOWN__" ++ rest := by
  refine ⟨(c10_check_always_200 (some "GREEN") 0 false [("first", none)]).1,
    (c10_check_always_200 (some "GREEN") 0 false [("first", none)]).2.1 ?_⟩
  decide

/-! ## Helper lemmas: shapes of the authentication step results -/

theorem mohawk_Receiver_error_hawk (kps : List KeyPair) (req : Request) :
    ∀ e, mohawk_Receiver kps req = Except.error e →
      ∃ reason, e = AuthError.hawkFail reason := by
  intro e h
  unfold mohawk_Receiver at h
  cases hp : req.authParsed with
  | none =>
    rw [hp] at h
    simp only [Except.error.injEq] at h
    exact ⟨_, h.symm⟩
  | some fields =>
    rw [hp] at h
    simp only [] at h
    cases hl : lookup_credentials kps fields.id with
    | error e2 =>
      rw [hl] at h
      simp only [Except.error.injEq] at h
      unfold lookup_credentials at hl
      cases hfil : kps.filter (fun kp => kp.key_id == fields.id) with
      | nil =>
        rw [hfil] at hl
        simp only [Except.error.injEq] at hl
        exact ⟨_, h.symm.trans hl.symm⟩
      | cons kp rest =>
        rw [hfil] at hl
        exact absurd hl (by simp)
    | ok creds =>
      rw [hl] at h
      simp only [] at h
      split at h
      · exact absurd h (by simp)
      · simp only [Except.error.injEq] at h
        exact ⟨_, h.symm⟩

theorem auth_or_raise_spec (kps : List KeyPair) (kv : KV) (now ne : Nat) (req : Request) :
    (∃ e, mohawk_Receiver kps req = Except.error e ∧
       _authenticate_or_raise kps kv now ne req = (Except.error e, kv, [])) ∨
    (∃ res, mohawk_Receiver kps req = Except.ok res ∧
       kv_has_live kv now (nonce_key res) = true ∧
       _authenticate_or_raise kps kv now ne req =
         (Except.error (AuthError.httpUnauthorized INCORRECT), kv, [])) ∨
    (∃ res, mohawk_Receiver kps req = Except.ok res ∧
       kv_has_live kv now (nonce_key res) = false ∧
       _authenticate_or_raise kps kv now ne req =
         (Except.ok res,
          (nonce_key res, now + ne) :: kv.filter (fun en => en.1 != nonce_key res),
          [(nonce_key res, ne)])) := by
  cases hm : mohawk_Receiver kps req with
  | error e =>
    exact Or.inl ⟨e, rfl, by simp [_authenticate_or_raise, hm]⟩
  | ok res =>
    by_cases hl : kv_has_live kv now (nonce_key res) = true
    · exact Or.inr (Or.inl ⟨res, rfl, hl,
        by simp [_authenticate_or_raise, hm, set_nonce_nx, hl]⟩)
    · have hl2 : kv_has_live kv now (nonce_key res) = false := by
        simpa using hl
      exact Or.inr (Or.inr ⟨res, rfl, hl2,
        by simp [_authenticate_or_raise, hm, set_nonce_nx, hl2]⟩)

/-! ## Claim C8: order and messages of the header checks -/

/-- C8: the authenticator checks the required headers in order, rejecting
with 401 and the exact message at the first failure: a missing
X-Forwarded-Proto, then a missing Authorization, then a missing
Content-Type; a Content-Type header present with the empty string value
passes the header checks, after which the request is either rejected with
the INCORRECT text or forwarded. -/
theorem c8_header_checks (kps : List KeyPair) (ne : Nat) (kv : KV) (now : Nat)
    (req : Request) :
    (headerGet req.headers "X-Forwarded-Proto" = none →
      authenticator_step kps ne kv now req =
        (Decision.reject 401 MISSING_X_FORWARDED_PROTO, kv, [])) ∧
    (∀ v1, headerGet req.headers "X-Forwarded-Proto" = some v1 →
      headerGet req.headers "Authorization" = none →
      authenticator_step kps ne kv now req = (Decision.reject 401 NOT_PROVIDED, kv, [])) ∧
    (∀ v1 v2, headerGet req.headers "X-Forwarded-Proto" = some v1 →
      headerGet req.headers "Authorization" = some v2 →
      headerGet req.headers "Content-Type" = none →
      authenticator_step kps ne kv now req =
        (Decision.reject 401 MISSING_CONTENT_TYPE, kv, [])) ∧
    (∀ v1 v2, headerGet req.headers "X-Forwarded-Proto" = some v1 →
      headerGet req.headers "Authorization" = some v2 →
      headerGet req.headers "Content-Type" = some "" →
      (authenticator_step kps ne kv now req).1 = Decision.reject 401 INCORRECT ∨
      ∃ perms key_id,
        (authenticator_step kps ne kv now req).1 = Decision.forward perms key_id) := by
  refine ⟨?_, ?_, ?_, ?_⟩
  · intro h
    simp [authenticator_step, h]
  · intro v1 h1 h2
    simp [authenticator_step, h1, h2]
  · intro v1 v2 h1 h2 h3
    simp [authenticator_step, h1, h2, h3]
  · intro v1 v2 h1 h2 h3
    rcases auth_or_raise_spec kps kv now ne req with
      ⟨e, hm, hres⟩ | ⟨res, hm, hl, hres⟩ | ⟨res, hm, hl, hres⟩
    · rcases mohawk_Receiver_error_hawk kps req e hm with ⟨reason, rfl⟩
      left
      simp [authenticator_step, h1, h2, h3, hres]
    · left
      simp [authenticator_step, h1, h2, h3, hres]
    · right
      exact ⟨res.credentials.permissions, res.credentials.id,
        by simp [authenticator_step, h1, h2, h3, hres]⟩

/-- Witness for C8: a concrete request missing X-Forwarded-Proto is
rejected with 401 and the exact message. -/
theorem c8_witness :
    authenticator_step demo_key_pairs 120 [] 0 demo_request_no_xfp =
      (Decision.reject 401 MISSING_X_FORWARDED_PROTO, [], []) :=
  (c8_header_checks demo_key_pairs 120 [] 0 demo_request_no_xfp).1 rfl

/-! ## Claim C9: no nonce write when MAC verification fails -/

/-- C9: when the mohawk Receiver raises, the authenticator rejects with
401 and the INCORRECT text, the nonce store is returned unchanged and no
nonce entry is written: the SET-if-absent runs only after verification
succeeds. -/
theorem c9_no_nonce_write_on_hawk_fail (kps : List KeyPair) (ne : Nat) (kv : KV) (now : Nat)
    (req : Request) (v1 v2 v3 reason : String)
    (h1 : headerGet req.headers "X-Forwarded-Proto" = some v1)
    (h2 : headerGet req.headers "Authorization" = some v2)
    (h3 : headerGet req.headers "Content-Type" = some v3)
    (hm : mohawk_Receiver kps req = Except.error (AuthError.hawkFail reason)) :
    authenticator_step kps ne kv now req = (Decision.reject 401 INCORRECT, kv, []) := by
  have hres : _authenticate_or_raise kps kv now ne req =
      (Except.error (AuthError.hawkFail reason), kv, []) := by
    simp [_authenticate_or_raise, hm]
  simp [authenticator_step, h1, h2, h3, hres]

/-- Witness for C9: a concrete request whose MAC verification fails leaves
the empty nonce store empty and is rejected with the INCORRECT text. -/
theorem c9_witness :
    authenticator_step demo_key_pairs 120 [] 0 demo_request_bad_mac =
      (Decision.reject 401 INCORRECT, [], []) :=
  c9_no_nonce_write_on_hawk_fail demo_key_pairs 120 [] 0 demo_request_bad_mac
    "http" "Hawk-header" "" "mac mismatch" rfl rfl rfl rfl

/-! ## Claim C2: one nonce write per authenticated request, replay rejected -/

/-- C2: a request that passes MAC verification with a fresh nonce causes
exactly one nonce entry to be written, under the key built from the key id
and the nonce, via SET-if-absent with the nonce_expire ttl, and the
request is forwarded; a second request presenting the same key id and
nonce while the entry is within its ttl is rejected with 401, its rendered
response being exactly the INCORRECT details body, indistinguishable from
a wrong key or signature. -/
theorem c2_nonce_write_and_replay (kps : List KeyPair) (ne : Nat) (kv : KV) (now now2 : Nat)
    (req req2 : Request) (res res2 : Resource) (v1 v2 v3 u1 u2 u3 : String)
    (handler : HttpResponse)
    (h1 : headerGet req.headers "X-Forwarded-Proto" = some v1)
    (h2 : headerGet req.headers "Authorization" = some v2)
    (h3 : headerGet req.headers "Content-Type" = some v3)
    (g1 : headerGet req2.headers "X-Forwarded-Proto" = some u1)
    (g2 : headerGet req2.headers "Authorization" = some u2)
    (g3 : headerGet req2.headers "Content-Type" = some u3)
    (hm : mohawk_Receiver kps req = Except.ok res)
    (hm2 : mohawk_Receiver kps req2 = Except.ok res2)
    (hkey : nonce_key res2 = nonce_key res)
    (hfresh : kv_has_live kv now (nonce_key res) = false)
    (hwithin : now2 < now + ne) :
    authenticator_step kps ne kv now req =
      (Decision.forward res.credentials.permissions res.credentials.id,
       (nonce_key res, now + ne) :: kv.filter (fun en => en.1 != nonce_key res),
       [(nonce_key res, ne)]) ∧
    authenticator_step kps ne
        ((nonce_key res, now + ne) :: kv.filter (fun en => en.1 != nonce_key res)) now2 req2 =
      (Decision.reject 401 INCORRECT,
       (nonce_key res, now + ne) :: kv.filter (fun en => en.1 != nonce_key res), []) ∧
    render (authenticator_step kps ne
        ((nonce_key res, now + ne) :: kv.filter (fun en => en.1 != nonce_key res)) now2
        req2).1 handler = error_response 401 INCORRECT := by
  have hres : _authenticate_or_raise kps kv now ne req =
      (Except.ok res,
       (nonce_key res, now + ne) :: kv.filter (fun en => en.1 != nonce_key res),
       [(nonce_key res, ne)]) := by
    simp [_authenticate_or_raise, hm, set_nonce_nx, hfresh]
  have hstep1 : authenticator_step kps ne kv now req =
      (Decision.forward res.credentials.permissions res.credentials.id,
       (nonce_key res, now + ne) :: kv.filter (fun en => en.1 != nonce_key res),
       [(nonce_key res, ne)]) := by
    simp [authenticator_step, h1, h2, h3, hres]
  have hlive : kv_has_live
      ((nonce_key res, now + ne) :: kv.filter (fun en => en.1 != nonce_key res)) now2
      (nonce_key res2) = true := by
    rw [hkey]
    simp [kv_has_live, hwithin]
  have hres2 : _authenticate_or_raise kps
      ((nonce_key res, now + ne) :: kv.filter (fun en => en.1 != nonce_key res)) now2 ne
      req2 =
      (Except.error (AuthError.httpUnauthorized INCORRECT),
       (nonce_key res, now + ne) :: kv.filter (fun en => en.1 != nonce_key res), []) := by
    simp [_authenticate_or_raise, hm2, set_nonce_nx, hlive]
  have hstep2 : authenticator_step kps ne
      ((nonce_key res, now + ne) :: kv.filter (fun en => en.1 != nonce_key res)) now2 req2 =
      (Decision.reject 401 INCORRECT,
       (nonce_key res, now + ne) :: kv.filter (fun en => en.1 != nonce_key res), []) := by
    simp [authenticator_step, g1, g2, g3, hres2]
  refine ⟨hstep1, hstep2, ?_⟩
  rw [hstep2]
  rfl

/-- Witness for C2 at concrete inputs: the first request writes exactly
the one nonce entry with ttl 120, and the identical request replayed 60
seconds later is rejected with the INCORRECT text. -/
theorem c2_witness :
    (authenticator_step demo_key_pairs 120 [] 0 demo_request).2.2 =
      [(nonce_key demo_resource, 120)] ∧
    (authenticator_step demo_key_pairs 120
        ((nonce_key demo_resource, 0 + 120) ::
          List.filter (fun en => en.1 != nonce_key demo_resource) []) 60 demo_request).1 =
      Decision.reject 401 INCORRECT := by
  have h := c2_nonce_write_and_replay demo_key_pairs 120 [] 0 60 demo_request demo_request
    demo_resource demo_resource "http" "Hawk-header" "" "http" "Hawk-header" ""
    { status := 200, body := "ok" }
    rfl rfl rfl rfl rfl rfl rfl rfl rfl (by decide) (by decide)
  exact ⟨by rw [h.1], by rw [h.2.1]⟩

/-! ## Claim C1: the X-Forwarded-For whitelist gate -/

/-- Counterexample to C1 as stated: the claim requires a request whose
X-Forwarded-For has fewer than two comma-separated entries to be rejected
with 401, but a request carrying the single whitelisted entry 1.2.3.4 is
forwarded to the handler — exactly the scenario of
test_post_returns_object in src/core/tests.py, which asserts 200 for it. -/
theorem c1_counterexample :
    (x_forwarded_for_entries demo_request.headers).length = 1 ∧
    (incoming_pipeline ["1.2.3.4"] demo_key_pairs 120 [] 0 demo_request).1 =
      Decision.forward ["POST"] "incoming-some-id-1" := by
  constructor
  · rfl
  · rfl

/-- C1 amended: the middleware selects one entry of X-Forwarded-For — the
second-from-last when the header has at least two comma-separated entries,
the sole entry when it has exactly one, and the empty string when it is
absent — and rejects the request with 401 and the INCORRECT details body
whenever the selected, trimmed entry is not in the configured whitelist;
the request is forwarded to the rest of the pipeline only when the
selected entry is whitelisted. -/
theorem c1_amended (wl : List String) (kps : List KeyPair) (ne : Nat) (kv : KV) (now : Nat)
    (req : Request) (handler : HttpResponse) :
    (wl.contains (x_forwarded_for_selected req.headers) = false →
      incoming_pipeline wl kps ne kv now req = (Decision.reject 401 INCORRECT, kv, []) ∧
      render (incoming_pipeline wl kps ne kv now req).1 handler =
        error_response 401 INCORRECT) ∧
    (∀ perms key_id rest,
      incoming_pipeline wl kps ne kv now req = (Decision.forward perms key_id, rest) →
      wl.contains (x_forwarded_for_selected req.headers) = true) := by
  constructor
  · intro h
    have hpipe : incoming_pipeline wl kps ne kv now req =
        (Decision.reject 401 INCORRECT, kv, []) := by
      unfold incoming_pipeline x_forwarded_for_check
      rw [h]
      simp
    refine ⟨hpipe, ?_⟩
    rw [hpipe]
    rfl
  · intro perms key_id rest hpipe
    by_cases h : wl.contains (x_forwarded_for_selected req.headers) = true
    · exact h
    · exfalso
      have h2 : wl.contains (x_forwarded_for_selected req.headers) = false := by
        simpa using h
      have hpipe2 : incoming_pipeline wl kps ne kv now req =
          (Decision.reject 401 INCORRECT, kv, []) := by
        unfold incoming_pipeline x_forwarded_for_check
        rw [h2]
        simp
      rw [hpipe2] at hpipe
      simp at hpipe

/-- Witness for C1 amended at concrete inputs: with X-Forwarded-For
3.4.5.6,1.2.3.4 and whitelist 1.2.3.4, the selected second-from-last entry
3.4.5.6 is not whitelisted and the request is rejected with 401 and the
INCORRECT text (the scenario of test_at_end_x_forwarded_for_401). -/
theorem c1_witness :
    incoming_pipeline ["1.2.3.4"] demo_key_pairs 120 [] 0 demo_request_bad_xff =
      (Decision.reject 401 INCORRECT, [], []) :=
  ((c1_amended ["1.2.3.4"] demo_key_pairs 120 [] 0 demo_request_bad_xff
    { status := 200, body := "ok" }).1 (by decide)).1
